import Mathlib

/-!
Verification of the hover/emphasis interaction state machine and the cascading
text-style resolution engine of `src/util/graphic.js`.

The JavaScript code is shallowly embedded: JS objects used as enumerable style
records become ordered association lists (`Props`), the element's live style
(only ever read and written by key, never enumerated) becomes a function
`String → Option JVal`, and the external color-lift utility
(`colorTool.lift(color, -0.1)`) is kept as an abstract parameter `lift`.
Where the module relies on documented contracts of external collaborators
whose code is not part of this repository slice (zrender's `Style.extendFrom`,
`Displayable.setStyle`, `Eventful.on`, and the hierarchical configuration
model's `getShallow`/`getModel`), the corresponding definition carries a doc
comment naming the contract it models.
-/

set_option maxHeartbeats 1000000

namespace ECharts

/-- JavaScript primitive values handled by the styling layer.  The
degree-to-radian conversion (`labelRotate *= Math.PI / 180`) is kept symbolic
through the `radians` constructor since floating point is out of scope. -/
inductive JVal where
  | str (s : String)
  | num (n : Int)
  | jbool (b : Bool)
  | radians (n : Int)
deriving DecidableEq

/-- JavaScript truthiness of a possibly-null value (`none` models both `null`
and `undefined`). -/
def jsTruthy : Option JVal → Bool
  | none => false
  | some (JVal.str s) => s ≠ ""
  | some (JVal.num n) => n ≠ 0
  | some (JVal.jbool b) => b
  | some (JVal.radians n) => n ≠ 0

/-- JavaScript `a || b`. -/
def jsOr (a b : Option JVal) : Option JVal := if jsTruthy a then a else b

/-- zrUtil.retrieve2: the first non-null argument. -/
def retrieve2 (a b : Option JVal) : Option JVal := if a.isSome then a else b

/-- A JavaScript object used as an enumerable style record: assignment-ordered
keys, each holding a possibly-null stored value. -/
abbrev Props := List (String × Option JVal)

/-- Key lookup distinguishing an absent key (`none`) from a stored value. -/
def lookupP : Props → String → Option (Option JVal)
  | [], _ => none
  | kv :: rest, k => if kv.1 = k then some kv.2 else lookupP rest k

/-- JavaScript property read: an absent key reads as `undefined`. -/
def getP (p : Props) (k : String) : Option JVal :=
  match lookupP p k with
  | some v => v
  | none => none

/-- JavaScript property assignment: updates the key in place or appends it. -/
def setKey : Props → String → Option JVal → Props
  | [], k, v => [(k, v)]
  | kv :: rest, k, v => if kv.1 = k then (k, v) :: rest else kv :: setKey rest k v

/-! ## The element model

`GraphicElement` as consumed by the hover/emphasis controller: a zrender
element with a mutable live style (read and written by key, never enumerated -
hence a function), a z-order, and the transient bookkeeping fields the module
attaches (`__hoverStl`, `__hoverStlDirty`, `__normalStl`, `__isHover`,
`__isEmphasis`, `__hoverSilentOnTouch`).  Event subscriptions (`el.on`) are
modelled as a list of handler tags with duplicate suppression. -/

/-- A scene-graph element (leaf or group, distinguished by `etype`). -/
structure Elem where
  etype : String := "path"
  style : String → Option JVal
  z2 : Int := 0
  useHoverLayer : Bool := false
  hasZr : Bool := false
  zrHover : Option Props := none
  hoverStl : Props := []
  hoverStlDirty : Bool := false
  normalStl : Option Props := none
  isHover : Bool := false
  isEmphasis : Bool := false
  hoverSilentOnTouch : Bool := false
  hoverStyleOwn : Option Props := none
  handlers : List String := []

attribute [ext] Elem

/-- Pointwise update of the live style at one key. -/
def updFn (f : String → Option JVal) (k : String) (v : Option JVal) :
    String → Option JVal :=
  fun k' => if k' = k then v else f k'

/-- Modelled from the spec: zrender `Style.extendFrom(stl)` merge contract -
"merge = only keys with non-null value in the delta are overwritten"
(spec section 4.2; also stated by the comment above the call site in
`doSingleEnterHover`).  The collaborator's code is not part of this slice. -/
def extendFromFn (f : String → Option JVal) : Props → (String → Option JVal)
  | [] => f
  | kv :: rest => extendFromFn (if kv.2.isSome then updFn f kv.1 kv.2 else f) rest

/-- Modelled from the spec: zrender `Displayable.setStyle(stl)` plain-replace
contract - every key present in the argument is written back, null values
included (spec section 4.2: "set the live style back to the captured normal
snapshot (plain replace, not merge)"). -/
def setStyleFn (f : String → Option JVal) : Props → (String → Option JVal)
  | [] => f
  | kv :: rest => setStyleFn (updFn f kv.1 kv.2) rest

/-- `hasFillOrStroke(fillOrStroke)`: non-null and not the sentinel string
"none". -/
def hasFillOrStroke (v : Option JVal) : Bool :=
  v.isSome && !(v == some (JVal.str "none"))

/-- `liftColor(color)`: apply the external color-lift only to strings.  The
external `colorTool.lift(color, -0.1)` is the abstract parameter `lift`. -/
def liftColor (lift : String → String) : Option JVal → Option JVal
  | some (JVal.str s) => some (JVal.str (lift s))
  | v => v

/-- The snapshot loop of `cacheElementStl`: for every key of the (defaulted)
hover style holding a non-null value, record the element's current live style
value under that key. -/
def snapStep (s : String → Option JVal) (acc : Props) : Props → Props
  | [] => acc
  | kv :: rest => snapStep s (if kv.2.isSome then setKey acc kv.1 (s kv.1) else acc) rest

/-- `cacheElementStl(el)`: when the hover delta is dirty, install the default
lifted fill/stroke into `__hoverStl` and capture the normal-style snapshot
into `__normalStl`. -/
def cacheElementStl (lift : String → String) (el : Elem) : Elem :=
  if el.hoverStlDirty then
    let stroke := el.style "stroke"
    let fill := el.style "fill"
    let hs0 := el.hoverStl
    let hs1 := setKey hs0 "fill"
      (jsOr (getP hs0 "fill") (if hasFillOrStroke fill then liftColor lift fill else none))
    let hs2 := setKey hs1 "stroke"
      (jsOr (getP hs1 "stroke") (if hasFillOrStroke stroke then liftColor lift stroke else none))
    let normalStyle := snapStep el.style [] hs2
    { el with hoverStl := hs2, normalStl := some normalStyle, hoverStlDirty := false }
  else el

/-- `doSingleEnterHover(el)`: apply hover presentation to a leaf element. -/
def doSingleEnterHover (lift : String → String) (el : Elem) : Elem :=
  if el.isHover then el
  else
    let el1 := cacheElementStl lift el
    let el2 :=
      if el1.useHoverLayer then
        if el1.hasZr then { el1 with zrHover := some el1.hoverStl } else el1
      else
        { el1 with style := extendFromFn el1.style el1.hoverStl, z2 := el1.z2 + 1 }
    { el2 with isHover := true }

/-- `doSingleLeaveHover(el)`: restore normal presentation on a leaf element. -/
def doSingleLeaveHover (el : Elem) : Elem :=
  if !el.isHover then el
  else
    let el1 :=
      if el.useHoverLayer then
        if el.hasZr then { el with zrHover := none } else el
      else
        let el' :=
          match el.normalStl with
          | some ns => { el with style := setStyleFn el.style ns }
          | none => el
        { el' with z2 := el'.z2 - 1 }
    { el1 with isHover := false }

/-- `setElementHoverStl(el, hoverStl)`: store the pending hover delta (the
element's own `hoverStyle` wins), mark it dirty, and re-capture immediately
when the element is already in hover presentation. -/
def setElementHoverStl (lift : String → String) (hoverStl : Option Props) (el : Elem) : Elem :=
  let el1 := { el with hoverStl := el.hoverStyleOwn.getD (hoverStl.getD []),
                       hoverStlDirty := true }
  if el1.isHover then cacheElementStl lift el1 else el1

/-! ## The element tree and group propagation

`el.traverse(cb)` on a zrender group visits every strict descendant (nested
groups included); the callbacks used in this module skip nodes whose `type`
is "group". -/

/-- A scene-graph subtree. -/
inductive ETree where
  | node (data : Elem) (children : List ETree)

/-- The element stored at the root of a subtree. -/
def ETree.root : ETree → Elem
  | .node d _ => d

/-- The child subtrees of the root. -/
def ETree.children : ETree → List ETree
  | .node _ cs => cs

/-- Replace the root element of a subtree. -/
def withRoot (f : Elem → Elem) : ETree → ETree
  | .node d cs => .node (f d) cs

mutual

/-- `el.traverse(child => child.type !== 'group' && f(child))` applied to a
subtree rooted at a traversal child: update every non-group node. -/
def mapSubT (f : Elem → Elem) : ETree → ETree
  | .node d cs => .node (if d.etype = "group" then d else f d) (mapSubL f cs)

/-- List version of `mapSubT`. -/
def mapSubL (f : Elem → Elem) : List ETree → List ETree
  | [] => []
  | t :: ts => mapSubT f t :: mapSubL f ts

end

mutual

/-- All elements of a subtree, root first, in traversal order. -/
def elemsT : ETree → List Elem
  | .node d cs => d :: elemsL cs

/-- All elements of a forest. -/
def elemsL : List ETree → List Elem
  | [] => []
  | t :: ts => elemsT t ++ elemsL ts

end

/-- `el.type === 'group' ? el.traverse(child => child.type !== 'group' && f(child)) : f(el)` -
the group-propagation pattern used by `doEnterHover`, `doLeaveHover` and
`setHoverStyle`. -/
def applyHover (f : Elem → Elem) : ETree → ETree
  | .node d cs =>
    if d.etype = "group" then .node d (mapSubL f cs) else .node (f d) cs

/-- `doEnterHover(el)`. -/
def doEnterHover (lift : String → String) (t : ETree) : ETree :=
  applyHover (doSingleEnterHover lift) t

/-- `doLeaveHover(el)`. -/
def doLeaveHover (t : ETree) : ETree :=
  applyHover doSingleLeaveHover t

/-- `onElementMouseOver(e)`: pointer enter, suppressed on touch-synthesized
events when `__hoverSilentOnTouch` is set, and ignored while the element is in
emphasis state. -/
def onElementMouseOver (lift : String → String) (zrByTouch : Bool) (t : ETree) : ETree :=
  if t.root.hoverSilentOnTouch && zrByTouch then t
  else if t.root.isEmphasis then t
  else doEnterHover lift t

/-- `onElementMouseOut(e)`. -/
def onElementMouseOut (zrByTouch : Bool) (t : ETree) : ETree :=
  if t.root.hoverSilentOnTouch && zrByTouch then t
  else if t.root.isEmphasis then t
  else doLeaveHover t

/-- `enterEmphasis()`: the manual emphasis-on signal; never suppressed. -/
def enterEmphasis (lift : String → String) (t : ETree) : ETree :=
  doEnterHover lift (withRoot (fun e => { e with isEmphasis := true }) t)

/-- `leaveEmphasis()`: the manual emphasis-off signal. -/
def leaveEmphasis (t : ETree) : ETree :=
  doLeaveHover (withRoot (fun e => { e with isEmphasis := false }) t)

/-- Handler tag for the pointer-enter subscription. -/
def tagMouseOver : String := "mouseover:onElementMouseOver"

/-- Handler tag for the pointer-leave subscription. -/
def tagMouseOut : String := "mouseout:onElementMouseOut"

/-- Handler tag for the emphasis-on subscription. -/
def tagEmphasis : String := "emphasis:enterEmphasis"

/-- Handler tag for the emphasis-off subscription. -/
def tagNormal : String := "normal:leaveEmphasis"

/-- Modelled from the spec: zrender `Eventful.on` with duplicate-subscription
suppression ("Duplicated function will be auto-ignored, see Eventful.js" -
the collaborator's code is not part of this slice). -/
def addHandler (l : List String) (h : String) : List String :=
  if h ∈ l then l else l ++ [h]

/-- `setHoverStyle(el, hoverStyle, opt)`: store the silent-on-touch policy,
store the hover delta on every non-group descendant (or on the element
itself), and subscribe the element to the four signals. -/
def setHoverStyle (lift : String → String) (hoverStyle : Option Props)
    (opt : Option Bool) (t : ETree) : ETree :=
  let t1 := withRoot (fun e => { e with hoverSilentOnTouch := opt.getD false }) t
  let t2 := applyHover (setElementHoverStl lift hoverStyle) t1
  withRoot (fun e =>
    { e with handlers :=
        addHandler (addHandler (addHandler (addHandler e.handlers
          tagMouseOver) tagMouseOut) tagEmphasis) tagNormal }) t2

/-! ## The style-model hierarchy

The hierarchical configuration model (`Model` in echarts) is an external
collaborator of this module; only the contract the module consumes is
modelled here.  A model node is represented by the ordered list of raw option
objects from the node itself up to (but excluding) the global `ecModel`,
together with the global theme text style `ecModel.option.textStyle`. -/

/-- One raw option object on a model node's parent chain: its plain
properties and its optional `rich` map of named token option objects. -/
structure MOpt where
  props : Props := []
  rich : Option (List (String × Props)) := none

/-- A style-model node: the raw options of the node and of all its ancestors
(`parentModel` chain, nearest first, `ecModel` excluded) plus the global
theme text style. -/
structure Model where
  chain : List MOpt := []
  globalTextStyle : Option Props := none

/-- Modelled from the spec: the hierarchical style-model lookup
(`Model.getShallow` with parent-model chaining, an external collaborator):
the first non-null value of the key along the parent chain, else null. -/
def getShallowChain : List MOpt → String → Option JVal
  | [], _ => none
  | o :: rest, k =>
    match lookupP o.props k with
    | some (some v) => some v
    | _ => getShallowChain rest k

/-- `textStyleModel.getShallow(key)`. -/
def Model.getShallow (m : Model) (k : String) : Option JVal :=
  getShallowChain m.chain k

/-- Modelled from the spec: `textStyleModel.getModel(['rich', name])` - the
sub-model at path `rich.<name>` resolved against the original starting node,
with the per-property cascade re-resolving along the same parent chain. -/
def getRichSubModel (m : Model) (nm : String) : Model :=
  { chain := m.chain.filterMap (fun o =>
      (o.rich.bind (fun r => r.lookup nm)).map (fun ps => { props := ps })),
    globalTextStyle := m.globalTextStyle }

/-- Insert every token name of a rich map into the accumulator, first
insertion keeping its position (JS object key order). -/
def insertNames (acc : List String) : List (String × Props) → List String
  | [] => acc
  | kv :: rest => insertNames (if kv.1 ∈ acc then acc else acc ++ [kv.1]) rest

/-- The accumulator loop of `getRichItemNames`: walk the parent chain while
the node is not the `ecModel`, collecting declared token names.  The
accumulator object is created as soon as a `rich` option is present, even an
empty one. -/
def getRichNamesAux : Option (List String) → List MOpt → Option (List String)
  | acc, [] => acc
  | acc, o :: rest =>
    getRichNamesAux
      (match o.rich with
       | none => acc
       | some r => some (insertNames (acc.getD []) r)) rest

/-- `getRichItemNames(textStyleModel)`: the deduplicated union of rich token
names declared on the node and its ancestors, or null when no `rich` option
exists anywhere on the chain. -/
def getRichItemNames (m : Model) : Option (List String) :=
  getRichNamesAux none m.chain

/-- The `checkInside` entry of the option record: absent, explicitly `false`,
or a caller-supplied predicate. -/
inductive CheckInside where
  | unset
  | disabled
  | custom (f : Model → Option JVal → Bool)

/-- The resolution-options record (`opt` of `setTextStyleCommon`). -/
structure TOpt where
  isRectText : Bool := false
  autoColor : Option JVal := none
  checkInside : CheckInside := .unset
  disableBox : Bool := false
  forceRich : Bool := false

/-- Substring containment used by `textPosition.indexOf('inside') >= 0`. -/
def strContains (s sub : String) : Bool := (s.splitOn sub).length ≠ 1

/-- `defaultCheckInside(labelModel, textPosition)`. -/
def defaultCheckInside (_m : Model) (textPosition : Option JVal) : Bool :=
  match textPosition with
  | some (JVal.str s) => s ≠ "" && strContains s "inside"
  | _ => false

/-- `getAutoColor(color, opt)`: the literal "auto" resolves to the
caller-supplied auto color, or null when none is supplied. -/
def getAutoColor (color : Option JVal) (opt : TOpt) : Option JVal :=
  if color = some (JVal.str "auto") then
    if jsTruthy opt.autoColor then opt.autoColor else none
  else color

/-- `setTokenTextStyle(textStyle, textStyleModel, globalTextStyle, opt,
noDefault, isBlock)`: resolve one style-model node (block or rich token) into
assignments on the output record. -/
def setTokenTextStyle (ts : Props) (m : Model) (globalTextStyle : Option Props)
    (opt : TOpt) (noDefault : Bool) (isBlock : Bool) : Props :=
  let g : Props := if noDefault then [] else globalTextStyle.getD []
  let textFill0 := getAutoColor (m.getShallow "color") opt
  let textStroke0 := getAutoColor (m.getShallow "textBorderColor") opt
  let textLineWidth0 := m.getShallow "textBorderWidth"
  let resolved : Option JVal × Option JVal × Option JVal :=
    if noDefault then (textFill0, textStroke0, textLineWidth0)
    else
      let textFill1 := if textFill0 = none then getP g "color" else textFill0
      let textStroke1 := if textStroke0 = none then getP g "textBorderColor" else textStroke0
      let textLineWidth1 := if textLineWidth0 = none then getP g "textBorderWidth" else textLineWidth0
      let ci : Option (Model → Option JVal → Bool) :=
        match opt.checkInside with
        | .custom f => some f
        | .disabled => none
        | .unset => if opt.isRectText then some defaultCheckInside else none
      let insideHit : Bool :=
        textFill1 == none &&
          (match ci with
           | some f => f m (getP ts "textPosition")
           | none => false)
      let (textFill2, textStroke2, textLineWidth2) :=
        if insideHit then
          if textStroke1 = none then
            (some (JVal.str "#fff"), opt.autoColor,
             if textLineWidth1 = none then some (JVal.num 2) else textLineWidth1)
          else (some (JVal.str "#fff"), textStroke1, textLineWidth1)
        else (textFill1, textStroke1, textLineWidth1)
      let textFill3 := if textFill2 = none then opt.autoColor else textFill2
      (textFill3, textStroke2, textLineWidth2)
  let ts := setKey ts "textFill" resolved.1
  let ts := setKey ts "textStroke" resolved.2.1
  let ts := setKey ts "textLineWidth" resolved.2.2
  let ts := setKey ts "fontStyle" (jsOr (m.getShallow "fontStyle") (getP g "fontStyle"))
  let ts := setKey ts "fontWeight" (jsOr (m.getShallow "fontWeight") (getP g "fontWeight"))
  let ts := setKey ts "fontSize" (jsOr (m.getShallow "fontSize") (getP g "fontSize"))
  let ts := setKey ts "fontFamily" (jsOr (m.getShallow "fontFamily") (getP g "fontFamily"))
  let ts := setKey ts "textAlign" (m.getShallow "align")
  let ts := setKey ts "textVerticalAlign"
    (jsOr (m.getShallow "verticalAlign") (m.getShallow "baseline"))
  let ts := setKey ts "textLineHeight" (m.getShallow "lineHeight")
  let ts := setKey ts "textWidth" (m.getShallow "width")
  let ts := setKey ts "textHeight" (m.getShallow "height")
  let ts := setKey ts "textTag" (m.getShallow "tag")
  let ts :=
    if !isBlock || !opt.disableBox then
      let ts := setKey ts "textBackgroundColor" (getAutoColor (m.getShallow "backgroundColor") opt)
      let ts := setKey ts "textPadding" (m.getShallow "padding")
      let ts := setKey ts "textBorderColor" (getAutoColor (m.getShallow "borderColor") opt)
      let ts := setKey ts "textBorderWidth" (m.getShallow "borderWidth")
      let ts := setKey ts "textBorderRadius" (m.getShallow "borderRadius")
      let ts := setKey ts "textBoxShadowColor" (m.getShallow "shadowColor")
      let ts := setKey ts "textBoxShadowBlur" (m.getShallow "shadowBlur")
      let ts := setKey ts "textBoxShadowOffsetX" (m.getShallow "shadowOffsetX")
      setKey ts "textBoxShadowOffsetY" (m.getShallow "shadowOffsetY")
    else ts
  let ts := setKey ts "textShadowColor"
    (jsOr (m.getShallow "textShadowColor") (getP g "textShadowColor"))
  let ts := setKey ts "textShadowBlur"
    (jsOr (m.getShallow "textShadowBlur") (getP g "textShadowBlur"))
  let ts := setKey ts "textShadowOffsetX"
    (jsOr (m.getShallow "textShadowOffsetX") (getP g "textShadowOffsetX"))
  setKey ts "textShadowOffsetY"
    (jsOr (m.getShallow "textShadowOffsetY") (getP g "textShadowOffsetY"))

/-- The flattened output record: the assigned style keys plus the `rich`
field assigned by `setTextStyleCommon` (`none` models the field holding
`undefined`, i.e. no rich-text segments; `some` holds the token mapping). -/
structure TextStyle where
  props : Props := []
  rich : Option (List (String × Props)) := none

/-- `setTextStyleCommon(textStyle, textStyleModel, opt, noDefault)`. -/
def setTextStyleCommon (ts : TextStyle) (m : Model) (opt : TOpt)
    (noDefault : Bool) : TextStyle :=
  let props :=
    if opt.isRectText then
      let textPosition := jsOr (m.getShallow "position")
        (if noDefault then none else some (JVal.str "inside"))
      let textPosition :=
        if textPosition = some (JVal.str "outside") then some (JVal.str "top")
        else textPosition
      let p := setKey ts.props "textPosition" textPosition
      let p := setKey p "textOffset" (m.getShallow "offset")
      let labelRotate :=
        match m.getShallow "rotate" with
        | some (JVal.num n) => some (JVal.radians n)
        | v => v
      let p := setKey p "textRotation" labelRotate
      setKey p "textDistance"
        (retrieve2 (m.getShallow "distance") (if noDefault then none else some (JVal.num 5)))
    else ts.props
  let g := m.globalTextStyle
  let richResult := (getRichItemNames m).map (fun ns =>
    ns.map (fun nm => (nm, setTokenTextStyle [] (getRichSubModel m nm) g opt noDefault false)))
  let props := setTokenTextStyle props m g opt noDefault true
  { props := props, rich := richResult }

/-- `zrUtil.extend(target, source)`: copy every key, null values included. -/
def extendAll (p : Props) : Props → Props
  | [] => p
  | kv :: rest => extendAll (setKey p kv.1 kv.2) rest

/-- `setTextStyle(textStyle, textStyleModel, specifiedTextStyle, opt,
noDefault)`: common resolution followed by the caller-supplied overlay. -/
def setTextStyle (ts : TextStyle) (m : Model) (specified : Option Props)
    (opt : TOpt) (noDefault : Bool) : TextStyle :=
  let ts1 := setTextStyleCommon ts m opt noDefault
  match specified with
  | some sp => { ts1 with props := extendAll ts1.props sp }
  | none => ts1

/-- The `opt` record of `setLabelStyle`: the text-style options plus the
label-fetching fields.  The fetcher receives the data index, the state name
and the dimension index (the third `null` argument of the source call is
dropped). -/
structure LOpt extends TOpt where
  labelFetcher : Option (Option JVal → String → Option JVal → Option JVal) := none
  labelDataIndex : Option JVal := none
  labelDimIndex : Option JVal := none
  defaultText : Option JVal := none

/-- Result of `setLabelStyle`, instrumented with ghost observations: the list
of states for which `labelFetcher.getFormattedLabel` was invoked, and whether
the style-resolution step (`setTextStyle`) ran at all. -/
structure LabelResult where
  normal : TextStyle
  emphasis : TextStyle
  fetcherCalls : List String
  styleResolved : Bool

/-- `setLabelStyle(normalStyle, emphasisStyle, normalModel, emphasisModel,
opt, normalSpecified, emphasisSpecified)`. -/
def setLabelStyle (normalStyle emphasisStyle : TextStyle)
    (normalModel emphasisModel : Model) (opt : LOpt)
    (normalSpecified emphasisSpecified : Option Props) : LabelResult :=
  let showNormal := jsTruthy (normalModel.getShallow "show")
  let (normalStyleText, callsN) :=
    if showNormal then
      match opt.labelFetcher with
      | some f =>
        (retrieve2 (f opt.labelDataIndex "normal" opt.labelDimIndex) opt.defaultText,
         ["normal"])
      | none => (retrieve2 none opt.defaultText, [])
    else (none, [])
  let showEmphasis := jsTruthy (emphasisModel.getShallow "show")
  let (emphasisStyleText, callsE) :=
    if showEmphasis then
      match opt.labelFetcher with
      | some f =>
        (retrieve2 (f opt.labelDataIndex "emphasis" opt.labelDimIndex) normalStyleText,
         ["emphasis"])
      | none => (retrieve2 none normalStyleText, [])
    else (none, [])
  let doResolve := normalStyleText.isSome || emphasisStyleText.isSome
  let (ns1, es1) :=
    if doResolve then
      (setTextStyle normalStyle normalModel normalSpecified opt.toTOpt false,
       setTextStyle emphasisStyle emphasisModel emphasisSpecified opt.toTOpt true)
    else (normalStyle, emphasisStyle)
  { normal := { ns1 with props := setKey ns1.props "text" normalStyleText },
    emphasis := { es1 with props := setKey es1.props "text" emphasisStyleText },
    fetcherCalls := callsN ++ callsE,
    styleResolved := doResolve }

/-! ## Concrete instances used by witnesses and counterexamples -/

/-- A concrete stand-in for the external `colorTool.lift(color, -0.1)`. -/
def demoLift : String → String := fun s => "lifted:" ++ s

/-- Live style of the end-to-end scenario: `{fill: "#336699", stroke: "none"}`. -/
def demoStyle : String → Option JVal := fun k =>
  if k = "fill" then some (JVal.str "#336699")
  else if k = "stroke" then some (JVal.str "none")
  else none

/-- A leaf element with the scenario style and a freshly configured (dirty)
empty hover delta. -/
def demoElem : Elem := { style := demoStyle, hoverStlDirty := true }

/-- A leaf element with empty style. -/
def demoLeaf : Elem := { style := fun _ => none }

/-- A leaf element currently in emphasis state. -/
def demoEmphElem : Elem := { style := fun _ => none, isEmphasis := true }

/-- A group with a single non-group child. -/
def demoGroup : ETree :=
  .node { etype := "group", style := fun _ => none } [.node demoLeaf []]

/-- A model whose only option is `{show: false}`. -/
def demoShowFalseModel : Model :=
  { chain := [{ props := [("show", some (JVal.jbool false))] }] }

/-- A model with an empty chain: no property is declared anywhere. -/
def demoEmptyModel : Model := {}

/-- Options with rect-text resolution enabled. -/
def demoRectOpt : TOpt := { isRectText := true }

/-- A model declaring an empty `rich: {}` map: a rich option exists but no
token name is declared anywhere on the chain. -/
def demoEmptyRichModel : Model := { chain := [{ rich := some [] }] }

/-- A child node with no local rich declarations whose ancestor declares
`rich: {a: {color: "red"}}`. -/
def demoInheritModel : Model :=
  { chain := [{}, { rich := some [("a", [("color", some (JVal.str "red"))])] }] }

/-- A model declaring a rich token `a` with a background color. -/
def demoTokenBoxModel : Model :=
  { chain := [{ rich := some [("a", [("backgroundColor", some (JVal.str "red"))])] }] }

/-- Options with box rendering explicitly disabled. -/
def demoDisableBoxOpt : TOpt := { disableBox := true }

/-! ## Lemmas on the property-record operations -/

theorem lookupP_setKey (p : Props) (k : String) (v : Option JVal) (k' : String) :
    lookupP (setKey p k v) k' = if k' = k then some v else lookupP p k' := by
  induction p with
  | nil =>
    simp only [setKey, lookupP]
    by_cases h : k = k'
    · subst h; simp
    · rw [if_neg h, if_neg (fun hh => h hh.symm)]
  | cons kv rest ih =>
    simp only [setKey]
    by_cases h1 : kv.1 = k
    · rw [if_pos h1]
      simp only [lookupP]
      by_cases h2 : k = k'
      · subst h2; simp
      · rw [if_neg h2, if_neg (fun hh => h2 hh.symm), if_neg (fun hh => h2 (h1 ▸ hh))]
    · rw [if_neg h1]
      simp only [lookupP]
      by_cases h2 : kv.1 = k'
      · rw [if_pos h2, if_pos h2, if_neg (fun hh => h1 (h2.trans hh))]
      · rw [if_neg h2, if_neg h2, ih]

theorem lookupP_setKey_self (p : Props) (k : String) (v : Option JVal) :
    lookupP (setKey p k v) k = some v := by
  rw [lookupP_setKey]
  simp

theorem getP_setKey (p : Props) (k : String) (v : Option JVal) (k' : String) :
    getP (setKey p k v) k' = if k' = k then v else getP p k' := by
  unfold getP
  rw [lookupP_setKey]
  by_cases h : k' = k <;> simp [h]

theorem lookupP_isSome_eq_any (p : Props) (k : String) :
    (lookupP p k).isSome = p.any (fun kv => decide (kv.1 = k)) := by
  induction p with
  | nil => simp [lookupP]
  | cons kv rest ih =>
    simp only [lookupP, List.any_cons]
    by_cases h : kv.1 = k <;> simp [h, ih]

theorem mem_setKey {p : Props} {k : String} {v : Option JVal} {kv : String × Option JVal}
    (h : kv ∈ setKey p k v) : kv ∈ p ∨ kv = (k, v) := by
  induction p with
  | nil => simp only [setKey, List.mem_singleton] at h; exact Or.inr h
  | cons kv0 rest ih =>
    simp only [setKey] at h
    by_cases h1 : kv0.1 = k
    · rw [if_pos h1] at h
      rcases List.mem_cons.mp h with h2 | h2
      · exact Or.inr h2
      · exact Or.inl (List.mem_cons_of_mem _ h2)
    · rw [if_neg h1] at h
      rcases List.mem_cons.mp h with h2 | h2
      · exact Or.inl (List.mem_cons.mpr (Or.inl h2))
      · rcases ih h2 with h3 | h3
        · exact Or.inl (List.mem_cons_of_mem _ h3)
        · exact Or.inr h3

theorem snapStep_values (s : String → Option JVal) :
    ∀ (hs acc : Props), (∀ kv ∈ acc, kv.2 = s kv.1) →
      ∀ kv ∈ snapStep s acc hs, kv.2 = s kv.1 := by
  intro hs
  induction hs with
  | nil => intro acc hacc kv hkv; exact hacc kv hkv
  | cons kv0 rest ih =>
    intro acc hacc kv hkv
    simp only [snapStep] at hkv
    refine ih _ ?_ kv hkv
    intro kv1 hkv1
    by_cases h : kv0.2.isSome
    · rw [if_pos h] at hkv1
      rcases mem_setKey hkv1 with h2 | h2
      · exact hacc kv1 h2
      · subst h2; rfl
    · rw [if_neg h] at hkv1
      exact hacc kv1 hkv1

theorem snapStep_lookup (s : String → Option JVal) :
    ∀ (hs acc : Props) (k : String),
      lookupP (snapStep s acc hs) k =
        if hs.any (fun kv => decide (kv.1 = k) && kv.2.isSome) then some (s k)
        else lookupP acc k := by
  intro hs
  induction hs with
  | nil => intro acc k; simp [snapStep]
  | cons kv0 rest ih =>
    intro acc k
    simp only [snapStep, List.any_cons]
    rw [ih]
    by_cases hrest : rest.any (fun kv => decide (kv.1 = k) && kv.2.isSome)
    · simp [hrest]
    · by_cases hsome : kv0.2.isSome
      · by_cases hk : kv0.1 = k
        · subst hk
          simp [hrest, hsome, lookupP_setKey]
        · have hk' : ¬k = kv0.1 := fun h => hk h.symm
          simp [hrest, hsome, hk, hk', lookupP_setKey]
      · simp [hrest, hsome]

theorem extendFromFn_not_touched :
    ∀ (d : Props) (f : String → Option JVal) (k : String),
      d.any (fun kv => decide (kv.1 = k) && kv.2.isSome) = false →
      extendFromFn f d k = f k := by
  intro d
  induction d with
  | nil => intro f k _; rfl
  | cons kv0 rest ih =>
    intro f k h
    simp only [List.any_cons, Bool.or_eq_false_iff] at h
    simp only [extendFromFn]
    rw [ih _ k (by simp [h.2])]
    by_cases hsome : kv0.2.isSome
    · rw [if_pos hsome]
      unfold updFn
      rw [if_neg]
      intro hk
      have := h.1
      simp [hk, hsome] at this
    · rw [if_neg hsome]

theorem setStyleFn_eval (s : String → Option JVal) :
    ∀ (ns : Props) (f : String → Option JVal) (k : String),
      (∀ kv ∈ ns, kv.2 = s kv.1) →
      setStyleFn f ns k = if ns.any (fun kv => decide (kv.1 = k)) then s k else f k := by
  intro ns
  induction ns with
  | nil => intro f k _; simp [setStyleFn]
  | cons kv0 rest ih =>
    intro f k hvals
    simp only [setStyleFn, List.any_cons]
    rw [ih _ k (fun kv hkv => hvals kv (List.mem_cons_of_mem _ hkv))]
    by_cases hrest : rest.any (fun kv => decide (kv.1 = k))
    · simp [hrest]
    · by_cases hk : kv0.1 = k
      · subst hk
        have hv := hvals kv0 (List.mem_cons_self _ _)
        simp [hrest, updFn, hv]
      · have hk' : ¬k = kv0.1 := fun h => hk h.symm
        simp [hrest, hk, hk', updFn]

/-! ## Lemmas on the hover state machine -/

@[simp] theorem cacheElementStl_style (lift : String → String) (el : Elem) :
    (cacheElementStl lift el).style = el.style := by
  unfold cacheElementStl; split <;> rfl

@[simp] theorem cacheElementStl_z2 (lift : String → String) (el : Elem) :
    (cacheElementStl lift el).z2 = el.z2 := by
  unfold cacheElementStl; split <;> rfl

@[simp] theorem cacheElementStl_etype (lift : String → String) (el : Elem) :
    (cacheElementStl lift el).etype = el.etype := by
  unfold cacheElementStl; split <;> rfl

@[simp] theorem cacheElementStl_useHoverLayer (lift : String → String) (el : Elem) :
    (cacheElementStl lift el).useHoverLayer = el.useHoverLayer := by
  unfold cacheElementStl; split <;> rfl

@[simp] theorem cacheElementStl_hasZr (lift : String → String) (el : Elem) :
    (cacheElementStl lift el).hasZr = el.hasZr := by
  unfold cacheElementStl; split <;> rfl

@[simp] theorem cacheElementStl_zrHover (lift : String → String) (el : Elem) :
    (cacheElementStl lift el).zrHover = el.zrHover := by
  unfold cacheElementStl; split <;> rfl

@[simp] theorem cacheElementStl_isHover (lift : String → String) (el : Elem) :
    (cacheElementStl lift el).isHover = el.isHover := by
  unfold cacheElementStl; split <;> rfl

@[simp] theorem cacheElementStl_isEmphasis (lift : String → String) (el : Elem) :
    (cacheElementStl lift el).isEmphasis = el.isEmphasis := by
  unfold cacheElementStl; split <;> rfl

@[simp] theorem cacheElementStl_hoverSilentOnTouch (lift : String → String) (el : Elem) :
    (cacheElementStl lift el).hoverSilentOnTouch = el.hoverSilentOnTouch := by
  unfold cacheElementStl; split <;> rfl

@[simp] theorem cacheElementStl_hoverStyleOwn (lift : String → String) (el : Elem) :
    (cacheElementStl lift el).hoverStyleOwn = el.hoverStyleOwn := by
  unfold cacheElementStl; split <;> rfl

@[simp] theorem cacheElementStl_handlers (lift : String → String) (el : Elem) :
    (cacheElementStl lift el).handlers = el.handlers := by
  unfold cacheElementStl; split <;> rfl

@[simp] theorem doSingleEnterHover_isHover (lift : String → String) (el : Elem) :
    (doSingleEnterHover lift el).isHover = true := by
  unfold doSingleEnterHover
  split
  · assumption
  · rfl

@[simp] theorem doSingleLeaveHover_isHover (el : Elem) :
    (doSingleLeaveHover el).isHover = false := by
  unfold doSingleLeaveHover
  split
  · next h => simpa using h
  · rfl

theorem doSingleEnterHover_noop (lift : String → String) {el : Elem}
    (h : el.isHover = true) : doSingleEnterHover lift el = el := by
  unfold doSingleEnterHover
  rw [if_pos h]

theorem doSingleLeaveHover_noop {el : Elem}
    (h : el.isHover = false) : doSingleLeaveHover el = el := by
  unfold doSingleLeaveHover
  rw [if_pos (by simp [h])]

@[simp] theorem doSingleEnterHover_isEmphasis (lift : String → String) (el : Elem) :
    (doSingleEnterHover lift el).isEmphasis = el.isEmphasis := by
  cases el with
  | mk etype style z2 uhl hzr zrh hstl dirty nstl ihov iemp silent own hnd =>
    unfold doSingleEnterHover cacheElementStl
    by_cases h : ihov <;> by_cases hd : dirty <;> by_cases hu : uhl <;> by_cases hz : hzr <;>
      simp [h, hd, hu, hz]

@[simp] theorem doSingleLeaveHover_isEmphasis (el : Elem) :
    (doSingleLeaveHover el).isEmphasis = el.isEmphasis := by
  cases el with
  | mk etype style z2 uhl hzr zrh hstl dirty nstl ihov iemp silent own hnd =>
    unfold doSingleLeaveHover
    by_cases h : ihov <;> by_cases hu : uhl <;> by_cases hz : hzr <;>
      cases nstl <;> simp [h, hu, hz]

theorem cacheElementStl_setEmphasis (lift : String → String) (el : Elem) (b : Bool) :
    cacheElementStl lift { el with isEmphasis := b }
      = { cacheElementStl lift el with isEmphasis := b } := by
  cases el with
  | mk etype style z2 uhl hzr zrh hstl dirty nstl ihov iemp silent own hnd =>
    unfold cacheElementStl
    by_cases hd : dirty <;> simp [hd]

theorem doSingleEnterHover_setEmphasis (lift : String → String) (el : Elem) (b : Bool) :
    doSingleEnterHover lift { el with isEmphasis := b }
      = { doSingleEnterHover lift el with isEmphasis := b } := by
  cases el with
  | mk etype style z2 uhl hzr zrh hstl dirty nstl ihov iemp silent own hnd =>
    unfold doSingleEnterHover cacheElementStl
    by_cases h : ihov <;> by_cases hd : dirty <;> by_cases hu : uhl <;> by_cases hz : hzr <;>
      simp [h, hd, hu, hz]

@[simp] theorem doSingleEnterHover_etype (lift : String → String) (el : Elem) :
    (doSingleEnterHover lift el).etype = el.etype := by
  cases el with
  | mk etype style z2 uhl hzr zrh hstl dirty nstl ihov iemp silent own hnd =>
    unfold doSingleEnterHover cacheElementStl
    by_cases h : ihov <;> by_cases hd : dirty <;> by_cases hu : uhl <;> by_cases hz : hzr <;>
      simp [h, hd, hu, hz]

@[simp] theorem doSingleEnterHover_useHoverLayer (lift : String → String) (el : Elem) :
    (doSingleEnterHover lift el).useHoverLayer = el.useHoverLayer := by
  cases el with
  | mk etype style z2 uhl hzr zrh hstl dirty nstl ihov iemp silent own hnd =>
    unfold doSingleEnterHover cacheElementStl
    by_cases h : ihov <;> by_cases hd : dirty <;> by_cases hu : uhl <;> by_cases hz : hzr <;>
      simp [h, hd, hu, hz]

@[simp] theorem doSingleEnterHover_handlers (lift : String → String) (el : Elem) :
    (doSingleEnterHover lift el).handlers = el.handlers := by
  cases el with
  | mk etype style z2 uhl hzr zrh hstl dirty nstl ihov iemp silent own hnd =>
    unfold doSingleEnterHover cacheElementStl
    by_cases h : ihov <;> by_cases hd : dirty <;> by_cases hu : uhl <;> by_cases hz : hzr <;>
      simp [h, hd, hu, hz]

@[simp] theorem doSingleLeaveHover_etype (el : Elem) :
    (doSingleLeaveHover el).etype = el.etype := by
  cases el with
  | mk etype style z2 uhl hzr zrh hstl dirty nstl ihov iemp silent own hnd =>
    unfold doSingleLeaveHover
    by_cases h : ihov <;> by_cases hu : uhl <;> by_cases hz : hzr <;>
      cases nstl <;> simp [h, hu, hz]

@[simp] theorem doSingleLeaveHover_handlers (el : Elem) :
    (doSingleLeaveHover el).handlers = el.handlers := by
  cases el with
  | mk etype style z2 uhl hzr zrh hstl dirty nstl ihov iemp silent own hnd =>
    unfold doSingleLeaveHover
    by_cases h : ihov <;> by_cases hu : uhl <;> by_cases hz : hzr <;>
      cases nstl <;> simp [h, hu, hz]

theorem doSingleEnterHover_layer (lift : String → String) (el : Elem)
    (hu : el.useHoverLayer = true) :
    (doSingleEnterHover lift el).style = el.style ∧
    (doSingleEnterHover lift el).z2 = el.z2 := by
  cases el with
  | mk etype style z2 uhl hzr zrh hstl dirty nstl ihov iemp silent own hnd =>
    unfold doSingleEnterHover cacheElementStl
    subst hu
    by_cases h : ihov <;> by_cases hd : dirty <;> by_cases hz : hzr <;> simp [h, hd, hz]

theorem doSingleLeaveHover_layer (el : Elem) (hu : el.useHoverLayer = true) :
    (doSingleLeaveHover el).style = el.style ∧ (doSingleLeaveHover el).z2 = el.z2 := by
  cases el with
  | mk etype style z2 uhl hzr zrh hstl dirty nstl ihov iemp silent own hnd =>
    unfold doSingleLeaveHover
    subst hu
    by_cases h : ihov <;> by_cases hz : hzr <;> cases nstl <;> simp [h, hz]

/-! ## Lemmas on rich-token name collection -/

theorem mem_insertNames (nm : String) :
    ∀ (r : List (String × Props)) (acc : List String),
      nm ∈ insertNames acc r ↔ nm ∈ acc ∨ nm ∈ r.map Prod.fst := by
  intro r
  induction r with
  | nil => intro acc; simp [insertNames]
  | cons kv rest ih =>
    intro acc
    simp only [insertNames, ih, List.map_cons, List.mem_cons]
    by_cases h : kv.1 ∈ acc
    · simp only [if_pos h]
      constructor
      · rintro (ha | hr)
        · exact Or.inl ha
        · exact Or.inr (Or.inr hr)
      · rintro (ha | heq | hr)
        · exact Or.inl ha
        · subst heq; exact Or.inl h
        · exact Or.inr hr
    · simp only [if_neg h, List.mem_append, List.mem_singleton]
      tauto

theorem mem_getRichNamesAux (nm : String) :
    ∀ (chain : List MOpt) (acc : Option (List String)),
      nm ∈ (getRichNamesAux acc chain).getD [] ↔
        nm ∈ acc.getD [] ∨
          ∃ o ∈ chain, ∃ r, o.rich = some r ∧ nm ∈ r.map Prod.fst := by
  intro chain
  induction chain with
  | nil => intro acc; simp [getRichNamesAux]
  | cons o rest ih =>
    intro acc
    cases ho : o.rich with
    | none =>
      simp only [getRichNamesAux, ho, ih, List.mem_cons]
      constructor
      · rintro (ha | ⟨o', ho', hr⟩)
        · exact Or.inl ha
        · exact Or.inr ⟨o', Or.inr ho', hr⟩
      · rintro (ha | ⟨o', ho' | ho', r, hr, hmem⟩)
        · exact Or.inl ha
        · subst ho'; rw [ho] at hr; cases hr
        · exact Or.inr ⟨o', ho', r, hr, hmem⟩
    | some r =>
      simp only [getRichNamesAux, ho, ih, Option.getD_some, mem_insertNames,
        List.mem_cons]
      constructor
      · rintro (⟨ha | hrr⟩ | ⟨o', ho', hr⟩)
        · exact Or.inl ha
        · exact Or.inr ⟨o, Or.inl rfl, r, ho, hrr⟩
        · exact Or.inr ⟨o', Or.inr ho', hr⟩
      · rintro (ha | ⟨o', ho' | ho', r', hr', hmem⟩)
        · exact Or.inl (Or.inl ha)
        · subst ho'
          rw [ho] at hr'
          cases hr'
          exact Or.inl (Or.inr hmem)
        · exact Or.inr ⟨o', ho', r', hr', hmem⟩

theorem getRichNamesAux_eq_none :
    ∀ (chain : List MOpt) (acc : Option (List String)),
      getRichNamesAux acc chain = none ↔ acc = none ∧ ∀ o ∈ chain, o.rich = none := by
  intro chain
  induction chain with
  | nil => intro acc; simp [getRichNamesAux]
  | cons o rest ih =>
    intro acc
    cases ho : o.rich with
    | none =>
      simp only [getRichNamesAux, ho, ih, List.mem_cons]
      constructor
      · rintro ⟨ha, hall⟩
        exact ⟨ha, fun o' ho' => ho'.elim (fun h => h ▸ ho) (hall o')⟩
      · rintro ⟨ha, hall⟩
        exact ⟨ha, fun o' ho' => hall o' (Or.inr ho')⟩
    | some r =>
      simp only [getRichNamesAux, ho, ih]
      constructor
      · rintro ⟨ha, _⟩; cases ha
      · rintro ⟨_, hall⟩
        have := hall o (List.mem_cons_self _ _)
        rw [ho] at this
        cases this

/-! ## The claims -/

/-- C1: For every leaf element with a configured hover delta (not currently
hovering, delta marked dirty by `setElementHoverStl`), `doSingleEnterHover`
followed by `doSingleLeaveHover` restores the element's live style at every
key (in particular at every key present in the hover delta) to its value
immediately before enter, and restores the z-order `z2` to its original
value.  The delta is a style delta and cannot touch `z2` directly. -/
theorem claim1_enter_then_leave_restores (lift : String → String) (el : Elem)
    (h1 : el.isHover = false) (h2 : el.hoverStlDirty = true) :
    (∀ k, (doSingleLeaveHover (doSingleEnterHover lift el)).style k = el.style k) ∧
    (doSingleLeaveHover (doSingleEnterHover lift el)).z2 = el.z2 := by
  obtain ⟨hs2, hc⟩ : ∃ hs2 : Props, cacheElementStl lift el =
      { el with hoverStl := hs2,
                normalStl := some (snapStep el.style [] hs2),
                hoverStlDirty := false } := by
    refine ⟨setKey (setKey el.hoverStl "fill"
        (jsOr (getP el.hoverStl "fill")
          (if hasFillOrStroke (el.style "fill") then liftColor lift (el.style "fill")
           else none)))
      "stroke"
      (jsOr (getP (setKey el.hoverStl "fill"
          (jsOr (getP el.hoverStl "fill")
            (if hasFillOrStroke (el.style "fill") then liftColor lift (el.style "fill")
             else none))) "stroke")
        (if hasFillOrStroke (el.style "stroke") then liftColor lift (el.style "stroke")
         else none)), ?_⟩
    unfold cacheElementStl
    rw [if_pos h2]
  by_cases hu : el.useHoverLayer
  · have e1 := doSingleEnterHover_layer lift el hu
    have hu1 : (doSingleEnterHover lift el).useHoverLayer = true := by
      rw [doSingleEnterHover_useHoverLayer]; exact hu
    have e2 := doSingleLeaveHover_layer _ hu1
    exact ⟨fun k => by rw [e2.1, e1.1], by rw [e2.2, e1.2]⟩
  · have he : doSingleEnterHover lift el =
        { el with hoverStl := hs2,
                  normalStl := some (snapStep el.style [] hs2),
                  hoverStlDirty := false,
                  style := extendFromFn el.style hs2,
                  z2 := el.z2 + 1,
                  isHover := true } := by
      unfold doSingleEnterHover
      rw [if_neg (by simp [h1]), hc]
      simp [hu]
    have hl : doSingleLeaveHover (doSingleEnterHover lift el) =
        { el with hoverStl := hs2,
                  normalStl := some (snapStep el.style [] hs2),
                  hoverStlDirty := false,
                  style := setStyleFn (extendFromFn el.style hs2)
                    (snapStep el.style [] hs2),
                  z2 := el.z2 + 1 - 1,
                  isHover := false } := by
      rw [he]
      unfold doSingleLeaveHover
      simp [hu]
    rw [hl]
    constructor
    · intro k
      show setStyleFn (extendFromFn el.style hs2) (snapStep el.style [] hs2) k = el.style k
      have hvals : ∀ kv ∈ snapStep el.style [] hs2, kv.2 = el.style kv.1 :=
        snapStep_values el.style hs2 [] (by intro kv h; cases h)
      rw [setStyleFn_eval el.style _ _ k hvals]
      by_cases hany : (snapStep el.style [] hs2).any (fun kv => decide (kv.1 = k))
      · simp [hany]
      · simp only [hany, Bool.false_eq_true, if_false]
        apply extendFromFn_not_touched
        by_contra hcon
        have hcon' : hs2.any (fun kv => decide (kv.1 = k) && kv.2.isSome) = true := by
          revert hcon
          cases hs2.any (fun kv => decide (kv.1 = k) && kv.2.isSome) <;> simp
        have hsom : (lookupP (snapStep el.style [] hs2) k).isSome = true := by
          rw [snapStep_lookup, if_pos hcon']
          rfl
        rw [lookupP_isSome_eq_any] at hsom
        exact hany hsom
    · show el.z2 + 1 - 1 = el.z2
      omega

/-- Closed witness for C1: the scenario element satisfies the hypotheses and
the round trip restores its fill and z-order. -/
theorem claim1_witness :
    demoElem.isHover = false ∧ demoElem.hoverStlDirty = true ∧
    (doSingleLeaveHover (doSingleEnterHover demoLift demoElem)).style "fill"
      = demoElem.style "fill" ∧
    (doSingleLeaveHover (doSingleEnterHover demoLift demoElem)).z2 = demoElem.z2 :=
  ⟨rfl, rfl,
   (claim1_enter_then_leave_restores demoLift demoElem rfl rfl).1 "fill",
   (claim1_enter_then_leave_restores demoLift demoElem rfl rfl).2⟩

/-- C2: `doSingleEnterHover` is idempotent on every leaf element, and when
both the pointer trigger (`onElementMouseOver`) and the emphasis trigger
(`enterEmphasis`) request hover, the element ends up exactly as after a
single `doSingleEnterHover` (with the emphasis flag set): the z-order bump
and the normal-style snapshot are applied exactly once, with no leaked
z-order increment on re-entry. -/
theorem claim2_enter_applied_exactly_once (lift : String → String) (el : Elem)
    (cs : List ETree) (touch : Bool) (hleaf : el.etype ≠ "group") :
    doSingleEnterHover lift (doSingleEnterHover lift el) = doSingleEnterHover lift el ∧
    enterEmphasis lift (onElementMouseOver lift touch (.node el cs))
      = .node { doSingleEnterHover lift el with isEmphasis := true } cs := by
  have hbase : enterEmphasis lift (ETree.node el cs)
      = ETree.node { doSingleEnterHover lift el with isEmphasis := true } cs := by
    simp only [enterEmphasis, withRoot, doEnterHover, applyHover]
    rw [if_neg (show ¬({ el with isEmphasis := true } : Elem).etype = "group" from hleaf)]
    rw [doSingleEnterHover_setEmphasis]
  refine ⟨doSingleEnterHover_noop lift (doSingleEnterHover_isHover lift el), ?_⟩
  simp only [onElementMouseOver, ETree.root]
  by_cases hs : (el.hoverSilentOnTouch && touch) = true
  · rw [if_pos hs]
    exact hbase
  · rw [if_neg hs]
    by_cases he : el.isEmphasis = true
    · rw [if_pos he]
      exact hbase
    · rw [if_neg he]
      have hdo : doEnterHover lift (ETree.node el cs)
          = ETree.node (doSingleEnterHover lift el) cs := by
        simp only [doEnterHover, applyHover]
        rw [if_neg hleaf]
      rw [hdo]
      have hleaf2 : ¬(doSingleEnterHover lift el).etype = "group" := by
        rw [doSingleEnterHover_etype]; exact hleaf
      simp only [enterEmphasis, withRoot, doEnterHover, applyHover]
      rw [if_neg (show ¬({ doSingleEnterHover lift el with isEmphasis := true } : Elem).etype
            = "group" from hleaf2)]
      rw [doSingleEnterHover_setEmphasis,
        doSingleEnterHover_noop lift (doSingleEnterHover_isHover lift el)]

/-- Closed witness for C2 at a concrete leaf element. -/
theorem claim2_witness :
    demoLeaf.etype ≠ "group" ∧
    doSingleEnterHover demoLift (doSingleEnterHover demoLift demoLeaf)
      = doSingleEnterHover demoLift demoLeaf ∧
    enterEmphasis demoLift (onElementMouseOver demoLift false (.node demoLeaf []))
      = .node { doSingleEnterHover demoLift demoLeaf with isEmphasis := true } [] :=
  ⟨by decide,
   (claim2_enter_applied_exactly_once demoLift demoLeaf [] false (by decide)).1,
   (claim2_enter_applied_exactly_once demoLift demoLeaf [] false (by decide)).2⟩

/-- C3: while the emphasis flag is set, pointer-driven `onElementMouseOver`
and `onElementMouseOut` are complete no-ops (the whole element state,
including style, z-order and hover flag, is unchanged); the manual emphasis
transitions themselves are never suppressed (entering emphasis always puts a
leaf element into hover presentation, leaving emphasis always removes it),
and leaving emphasis does not re-apply a still-true pointer-hover state: the
element always ends with `isHover = false`. -/
theorem claim3_emphasis_masks_pointer (lift : String → String) (t : ETree)
    (el : Elem) (cs : List ETree) (touch : Bool)
    (hleaf : el.etype ≠ "group") (he : t.root.isEmphasis = true) :
    onElementMouseOver lift touch t = t ∧
    onElementMouseOut touch t = t ∧
    (enterEmphasis lift (.node el cs)).root.isHover = true ∧
    (enterEmphasis lift (.node el cs)).root.isEmphasis = true ∧
    (leaveEmphasis (.node el cs)).root.isHover = false ∧
    (leaveEmphasis (.node el cs)).root.isEmphasis = false := by
  have henter : (enterEmphasis lift (ETree.node el cs)).root
      = doSingleEnterHover lift { el with isEmphasis := true } := by
    simp only [enterEmphasis, withRoot, doEnterHover, applyHover]
    rw [if_neg (show ¬({ el with isEmphasis := true } : Elem).etype = "group" from hleaf)]
    rfl
  have hleave : (leaveEmphasis (ETree.node el cs)).root
      = doSingleLeaveHover { el with isEmphasis := false } := by
    simp only [leaveEmphasis, withRoot, doLeaveHover, applyHover]
    rw [if_neg (show ¬({ el with isEmphasis := false } : Elem).etype = "group" from hleaf)]
    rfl
  refine ⟨?_, ?_, ?_, ?_, ?_, ?_⟩
  · unfold onElementMouseOver
    by_cases hs : (t.root.hoverSilentOnTouch && touch) = true
    · rw [if_pos hs]
    · rw [if_neg hs, if_pos he]
  · unfold onElementMouseOut
    by_cases hs : (t.root.hoverSilentOnTouch && touch) = true
    · rw [if_pos hs]
    · rw [if_neg hs, if_pos he]
  · rw [henter, doSingleEnterHover_isHover]
  · rw [henter, doSingleEnterHover_isEmphasis]
  · rw [hleave, doSingleLeaveHover_isHover]
  · rw [hleave, doSingleLeaveHover_isEmphasis]

/-- Closed witness for C3 at a concrete emphasized element. -/
theorem claim3_witness :
    (ETree.node demoEmphElem []).root.isEmphasis = true ∧
    demoLeaf.etype ≠ "group" ∧
    onElementMouseOver demoLift true (.node demoEmphElem []) = .node demoEmphElem [] ∧
    onElementMouseOut true (.node demoEmphElem []) = .node demoEmphElem [] ∧
    (leaveEmphasis (.node demoLeaf [])).root.isHover = false :=
  ⟨rfl, by decide,
   (claim3_emphasis_masks_pointer demoLift (.node demoEmphElem []) demoLeaf [] true
     (by decide) rfl).1,
   (claim3_emphasis_masks_pointer demoLift (.node demoEmphElem []) demoLeaf [] true
     (by decide) rfl).2.1,
   (claim3_emphasis_masks_pointer demoLift (.node demoEmphElem []) demoLeaf [] true
     (by decide) rfl).2.2.2.2.1⟩

/-- C4: when the configured (dirty) hover delta has no explicit fill
(resp. stroke) key, `cacheElementStl` makes the effective hover fill
(resp. stroke) the lifted version of the element's current live value when
that value is paintable (non-null and not "none"), and leaves it unset
otherwise; an element's own truthy hover-style override for the key is kept
instead.  In particular, for live style `{fill: "#336699", stroke: "none"}`
and an empty delta, enter sets the live fill to the lifted shade, leaves the
hover stroke unset (live stroke stays "none"), and leave restores the fill
exactly to "#336699". -/
theorem claim4_default_lift_fill_stroke (lift : String → String) (el : Elem)
    (hd : el.hoverStlDirty = true)
    (hf : lookupP el.hoverStl "fill" = none)
    (hs : lookupP el.hoverStl "stroke" = none) :
    getP (cacheElementStl lift el).hoverStl "fill"
      = (if hasFillOrStroke (el.style "fill") then liftColor lift (el.style "fill")
         else none) ∧
    getP (cacheElementStl lift el).hoverStl "stroke"
      = (if hasFillOrStroke (el.style "stroke") then liftColor lift (el.style "stroke")
         else none) ∧
    (∀ el' : Elem, el'.hoverStlDirty = true →
      jsTruthy (getP el'.hoverStl "fill") = true →
      getP (cacheElementStl lift el').hoverStl "fill" = getP el'.hoverStl "fill") ∧
    (doSingleEnterHover lift demoElem).style "fill" = some (JVal.str (lift "#336699")) ∧
    (doSingleEnterHover lift demoElem).style "stroke" = some (JVal.str "none") ∧
    getP (doSingleEnterHover lift demoElem).hoverStl "stroke" = none ∧
    (doSingleLeaveHover (doSingleEnterHover lift demoElem)).style "fill"
      = some (JVal.str "#336699") := by
  have hcache : ∀ el' : Elem, el'.hoverStlDirty = true →
      (cacheElementStl lift el').hoverStl
        = setKey (setKey el'.hoverStl "fill"
            (jsOr (getP el'.hoverStl "fill")
              (if hasFillOrStroke (el'.style "fill") then liftColor lift (el'.style "fill")
               else none)))
          "stroke"
          (jsOr (getP (setKey el'.hoverStl "fill"
              (jsOr (getP el'.hoverStl "fill")
                (if hasFillOrStroke (el'.style "fill") then liftColor lift (el'.style "fill")
                 else none))) "stroke")
            (if hasFillOrStroke (el'.style "stroke") then liftColor lift (el'.style "stroke")
             else none)) := by
    intro el' hd'
    unfold cacheElementStl
    rw [if_pos hd']
  have hgf : getP el.hoverStl "fill" = none := by unfold getP; rw [hf]
  have hgs : getP el.hoverStl "stroke" = none := by unfold getP; rw [hs]
  refine ⟨?_, ?_, ?_, by rfl, by rfl, by rfl, by rfl⟩
  · simp [hcache el hd, getP_setKey, hgf, jsOr, jsTruthy]
  · simp [hcache el hd, getP_setKey, hgf, hgs, jsOr, jsTruthy]
  · intro el' hd' htr
    simp [hcache el' hd', getP_setKey, jsOr, htr]

/-- Closed witness for C4: the scenario element has a dirty, empty hover
delta; its effective hover fill is the lifted live fill, and the round trip
restores the original fill. -/
theorem claim4_witness :
    demoElem.hoverStlDirty = true ∧
    lookupP demoElem.hoverStl "fill" = none ∧
    lookupP demoElem.hoverStl "stroke" = none ∧
    getP (cacheElementStl demoLift demoElem).hoverStl "fill"
      = (if hasFillOrStroke (demoElem.style "fill")
         then liftColor demoLift (demoElem.style "fill") else none) ∧
    (doSingleEnterHover demoLift demoElem).style "fill"
      = some (JVal.str (demoLift "#336699")) ∧
    (doSingleLeaveHover (doSingleEnterHover demoLift demoElem)).style "fill"
      = some (JVal.str "#336699") :=
  ⟨rfl, rfl, rfl,
   (claim4_default_lift_fill_stroke demoLift demoElem rfl rfl rfl).1,
   (claim4_default_lift_fill_stroke demoLift demoElem rfl rfl rfl).2.2.2.1,
   (claim4_default_lift_fill_stroke demoLift demoElem rfl rfl rfl).2.2.2.2.2.2⟩

/-- C5: in no-default mode (the emphasis overlay path,
`setTextStyle(..., noDefault = true)`), properties the model chain does not
explicitly supply stay null in the output: with no color declared anywhere in
the chain, `textFill` is null (no theme fallback, no "inside" white fill, no
auto-color stroke), `textStroke` is null with no border color declared, and
for rect text `textPosition` and `textDistance` get no defaults. -/
theorem claim5_noDefault_keeps_null (m : Model) (opt : TOpt) (ts : TextStyle)
    (hrect : opt.isRectText = true)
    (hcolor : m.getShallow "color" = none)
    (hborder : m.getShallow "textBorderColor" = none)
    (hpos : m.getShallow "position" = none)
    (hdist : m.getShallow "distance" = none) :
    lookupP (setTextStyle ts m none opt true).props "textFill" = some none ∧
    lookupP (setTextStyle ts m none opt true).props "textStroke" = some none ∧
    lookupP (setTextStyle ts m none opt true).props "textPosition" = some none ∧
    lookupP (setTextStyle ts m none opt true).props "textDistance" = some none := by
  simp only [setTextStyle, setTextStyleCommon, hrect, if_true]
  refine ⟨?_, ?_, ?_, ?_⟩ <;> by_cases hb : opt.disableBox <;>
    simp [setTokenTextStyle, lookupP_setKey, getAutoColor, hcolor, hborder, hpos, hdist,
      jsOr, jsTruthy, retrieve2, hb]

/-- Closed witness for C5: the empty model declares nothing, and resolving it
in no-default mode leaves fill, stroke, position and distance null. -/
theorem claim5_witness :
    demoRectOpt.isRectText = true ∧
    demoEmptyModel.getShallow "color" = none ∧
    lookupP (setTextStyle {} demoEmptyModel none demoRectOpt true).props "textFill"
      = some none ∧
    lookupP (setTextStyle {} demoEmptyModel none demoRectOpt true).props "textPosition"
      = some none ∧
    lookupP (setTextStyle {} demoEmptyModel none demoRectOpt true).props "textDistance"
      = some none :=
  ⟨rfl, rfl,
   (claim5_noDefault_keeps_null demoEmptyModel demoRectOpt {} rfl rfl rfl rfl rfl).1,
   (claim5_noDefault_keeps_null demoEmptyModel demoRectOpt {} rfl rfl rfl rfl rfl).2.2.1,
   (claim5_noDefault_keeps_null demoEmptyModel demoRectOpt {} rfl rfl rfl rfl rfl).2.2.2⟩

/-- C6: in `setLabelStyle`, a state whose model has a falsy `show` gets text
content null and the label formatter is never invoked for that state; and
when both computed text contents are null, no style resolution happens at all
(`setTextStyle` never runs, so rich tokens are never inspected) and each
output record is exactly its input with only `text = null` stamped on. -/
theorem claim6_label_gate_short_circuit (ns es : TextStyle) (nm em : Model)
    (opt : LOpt) (nsp esp : Option Props) :
    (jsTruthy (nm.getShallow "show") = false →
      lookupP (setLabelStyle ns es nm em opt nsp esp).normal.props "text" = some none ∧
      "normal" ∉ (setLabelStyle ns es nm em opt nsp esp).fetcherCalls) ∧
    (jsTruthy (em.getShallow "show") = false →
      lookupP (setLabelStyle ns es nm em opt nsp esp).emphasis.props "text" = some none ∧
      "emphasis" ∉ (setLabelStyle ns es nm em opt nsp esp).fetcherCalls) ∧
    (lookupP (setLabelStyle ns es nm em opt nsp esp).normal.props "text" = some none →
     lookupP (setLabelStyle ns es nm em opt nsp esp).emphasis.props "text" = some none →
      (setLabelStyle ns es nm em opt nsp esp).styleResolved = false ∧
      (setLabelStyle ns es nm em opt nsp esp).normal
        = { ns with props := setKey ns.props "text" none } ∧
      (setLabelStyle ns es nm em opt nsp esp).emphasis
        = { es with props := setKey es.props "text" none }) := by
  refine ⟨fun h => ?_, fun h => ?_, fun h1 h2 => ?_⟩
  · by_cases he : jsTruthy (em.getShallow "show") = true <;> cases hfet : opt.labelFetcher <;>
      simp [setLabelStyle, h, he, hfet, lookupP_setKey]
  · by_cases hn : jsTruthy (nm.getShallow "show") = true <;> cases hfet : opt.labelFetcher <;>
      simp [setLabelStyle, h, hn, hfet, lookupP_setKey]
  · simp only [setLabelStyle] at h1 h2 ⊢
    rw [lookupP_setKey_self] at h1 h2
    simp only [Option.some.injEq] at h1 h2
    rw [h1] at h2 ⊢
    rw [h2]
    simp

/-- Closed witness for C6 at concrete show-false models: text is null, the
fetcher is never invoked, and no style resolution happens. -/
theorem claim6_witness :
    jsTruthy (demoShowFalseModel.getShallow "show") = false ∧
    lookupP (setLabelStyle {} {} demoShowFalseModel demoShowFalseModel {} none
      none).normal.props "text" = some none ∧
    (setLabelStyle {} {} demoShowFalseModel demoShowFalseModel {} none
      none).fetcherCalls = [] ∧
    (setLabelStyle {} {} demoShowFalseModel demoShowFalseModel {} none
      none).styleResolved = false :=
  ⟨rfl,
   ((claim6_label_gate_short_circuit {} {} demoShowFalseModel demoShowFalseModel {}
      none none).1 rfl).1,
   rfl,
   ((claim6_label_gate_short_circuit {} {} demoShowFalseModel demoShowFalseModel {}
      none none).2.2
     ((claim6_label_gate_short_circuit {} {} demoShowFalseModel demoShowFalseModel {}
        none none).1 rfl).1
     ((claim6_label_gate_short_circuit {} {} demoShowFalseModel demoShowFalseModel {}
        none none).2.1 rfl).1).1⟩

/-- C7 counterexample: a chain whose only node declares an empty `rich: {}`
map declares no token name anywhere, yet the resolved output's rich field is
a present-but-empty mapping (`some []`), not absent (`none`) - refuting the
claim that with no tokens declared the rich field is absent. -/
theorem claim7_counterexample :
    (∀ o ∈ demoEmptyRichModel.chain, o.rich.getD [] = []) ∧
    (setTextStyleCommon {} demoEmptyRichModel {} false).rich = some [] := by
  exact ⟨by decide, rfl⟩

/-- C7 (amended): the resolved rich-token name set is exactly the
deduplicated union of the token names declared on the node and on every
ancestor up the chain; the output's rich field is absent exactly when no
`rich` map at all is declared anywhere on the chain (a declared-but-empty
`rich: {}` yields a present empty mapping); each name is resolved via the
sub-model path `rich.<name>` against the original starting node (with the
disable-box option never applied to tokens, so tokens always receive box
keys); and a child with no local rich declarations whose ancestor declares
`rich: {a: ...}` resolves a non-empty set containing "a". -/
theorem claim7_rich_token_union (m : Model) (nm : String) (ts : TextStyle)
    (opt : TOpt) (nd : Bool) :
    (nm ∈ (getRichItemNames m).getD [] ↔
      ∃ o ∈ m.chain, ∃ r, o.rich = some r ∧ nm ∈ r.map Prod.fst) ∧
    (getRichItemNames m = none ↔ ∀ o ∈ m.chain, o.rich = none) ∧
    ((∀ o ∈ m.chain, o.rich = none) → (setTextStyleCommon ts m opt nd).rich = none) ∧
    ((getRichItemNames m).map (fun ns => ns.map (fun n =>
        (n, setTokenTextStyle [] (getRichSubModel m n) m.globalTextStyle opt nd false)))
      = (setTextStyleCommon ts m opt nd).rich) ∧
    getRichItemNames demoInheritModel = some ["a"] ∧
    (((setTextStyleCommon {} demoInheritModel {} false).rich.getD []).lookup "a").isSome
      = true := by
  have hmem := mem_getRichNamesAux nm m.chain none
  have hnone := getRichNamesAux_eq_none m.chain none
  refine ⟨?_, ?_, ?_, ?_, by rfl, by rfl⟩
  · simpa [getRichItemNames] using hmem
  · simpa [getRichItemNames] using hnone
  · intro hall
    have h0 : getRichItemNames m = none := by
      unfold getRichItemNames
      exact hnone.mpr ⟨rfl, hall⟩
    simp [setTextStyleCommon, h0]
  · simp [setTextStyleCommon]

/-- Closed witness for C7: on a model with no rich map anywhere, the rich
field is absent. -/
theorem claim7_witness :
    (∀ o ∈ demoEmptyModel.chain, o.rich = none) ∧
    (setTextStyleCommon {} demoEmptyModel {} false).rich = none :=
  ⟨fun o ho => absurd ho (List.not_mem_nil o),
   (claim7_rich_token_union demoEmptyModel "a" {} {} false).2.2.1
     (fun o ho => absurd ho (List.not_mem_nil o))⟩

/-- C8 counterexample: a rich-text token node with a declared background
color receives the box property `textBackgroundColor` even when box
rendering is explicitly disabled - refuting the claim that rich-text token
nodes never receive box properties. -/
theorem claim8_counterexample :
    demoDisableBoxOpt.disableBox = true ∧
    lookupP ((((setTextStyleCommon {} demoTokenBoxModel demoDisableBoxOpt
        false).rich.getD []).lookup "a").getD []) "textBackgroundColor"
      = some (some (JVal.str "red")) := by
  exact ⟨rfl, rfl⟩

/-- C8 (amended): the box properties are assigned exactly when the node is
not the top-level block node, or box rendering is not disabled: rich-text
token nodes (`isBlock = false`) always receive the box keys, while the block
node receives them if and only if `disableBox` is false (when disabled, the
box keys of the output are exactly those of the incoming record,
unchanged). -/
theorem claim8_box_condition (ts : Props) (m : Model) (g : Option Props)
    (opt : TOpt) (nd : Bool) :
    (lookupP (setTokenTextStyle ts m g opt nd false) "textBackgroundColor").isSome
      = true ∧
    (lookupP (setTokenTextStyle ts m g opt nd false) "textPadding").isSome = true ∧
    (lookupP (setTokenTextStyle ts m g opt nd false) "textBorderColor").isSome = true ∧
    (opt.disableBox = false →
      (lookupP (setTokenTextStyle ts m g opt nd true) "textBackgroundColor").isSome
        = true) ∧
    (opt.disableBox = true →
      lookupP (setTokenTextStyle ts m g opt nd true) "textBackgroundColor"
        = lookupP ts "textBackgroundColor" ∧
      lookupP (setTokenTextStyle ts m g opt nd true) "textPadding"
        = lookupP ts "textPadding" ∧
      lookupP (setTokenTextStyle ts m g opt nd true) "textBorderColor"
        = lookupP ts "textBorderColor" ∧
      lookupP (setTokenTextStyle ts m g opt nd true) "textBorderWidth"
        = lookupP ts "textBorderWidth" ∧
      lookupP (setTokenTextStyle ts m g opt nd true) "textBorderRadius"
        = lookupP ts "textBorderRadius" ∧
      lookupP (setTokenTextStyle ts m g opt nd true) "textBoxShadowColor"
        = lookupP ts "textBoxShadowColor" ∧
      lookupP (setTokenTextStyle ts m g opt nd true) "textBoxShadowBlur"
        = lookupP ts "textBoxShadowBlur" ∧
      lookupP (setTokenTextStyle ts m g opt nd true) "textBoxShadowOffsetX"
        = lookupP ts "textBoxShadowOffsetX" ∧
      lookupP (setTokenTextStyle ts m g opt nd true) "textBoxShadowOffsetY"
        = lookupP ts "textBoxShadowOffsetY") := by
  refine ⟨?_, ?_, ?_, fun hb => ?_, fun hb => ?_⟩ <;>
    simp [setTokenTextStyle, lookupP_setKey, *]

/-- Closed witness for C8: with box rendering disabled the block node's box
keys stay untouched, and with it enabled they are assigned. -/
theorem claim8_witness :
    demoDisableBoxOpt.disableBox = true ∧
    lookupP (setTokenTextStyle [] demoEmptyModel none demoDisableBoxOpt false true)
      "textBackgroundColor" = lookupP [] "textBackgroundColor" ∧
    (lookupP (setTokenTextStyle [] demoEmptyModel none demoRectOpt false true)
      "textBackgroundColor").isSome = true ∧
    (lookupP (setTokenTextStyle [] demoEmptyModel none demoDisableBoxOpt false false)
      "textBackgroundColor").isSome = true :=
  ⟨rfl,
   ((claim8_box_condition [] demoEmptyModel none demoDisableBoxOpt false).2.2.2.2
      rfl).1,
   (claim8_box_condition [] demoEmptyModel none demoRectOpt false).2.2.2.1 rfl,
   (claim8_box_condition [] demoEmptyModel none demoDisableBoxOpt false).1⟩

theorem mem_addHandler_self (l : List String) (h : String) : h ∈ addHandler l h := by
  unfold addHandler
  split
  · assumption
  · simp

theorem mem_addHandler_of_mem {l : List String} {h : String} (h' : String)
    (hm : h ∈ l) : h ∈ addHandler l h' := by
  unfold addHandler
  split
  · exact hm
  · exact List.mem_append_left _ hm

theorem addHandler_eq_of_mem {l : List String} {h : String} (hm : h ∈ l) :
    addHandler l h = l := by
  unfold addHandler
  rw [if_pos hm]

@[simp] theorem setElementHoverStl_handlers (lift : String → String)
    (hs : Option Props) (e : Elem) :
    (setElementHoverStl lift hs e).handlers = e.handlers := by
  unfold setElementHoverStl
  by_cases h : e.isHover <;> simp [h]

@[simp] theorem setElementHoverStl_style (lift : String → String)
    (hs : Option Props) (e : Elem) :
    (setElementHoverStl lift hs e).style = e.style := by
  unfold setElementHoverStl
  by_cases h : e.isHover <;> simp [h]

@[simp] theorem setElementHoverStl_z2 (lift : String → String)
    (hs : Option Props) (e : Elem) :
    (setElementHoverStl lift hs e).z2 = e.z2 := by
  unfold setElementHoverStl
  by_cases h : e.isHover <;> simp [h]

@[simp] theorem setElementHoverStl_isHover (lift : String → String)
    (hs : Option Props) (e : Elem) :
    (setElementHoverStl lift hs e).isHover = e.isHover := by
  unfold setElementHoverStl
  by_cases h : e.isHover <;> simp [h]

@[simp] theorem setElementHoverStl_isEmphasis (lift : String → String)
    (hs : Option Props) (e : Elem) :
    (setElementHoverStl lift hs e).isEmphasis = e.isEmphasis := by
  unfold setElementHoverStl
  by_cases h : e.isHover <;> simp [h]

@[simp] theorem setElementHoverStl_etype (lift : String → String)
    (hs : Option Props) (e : Elem) :
    (setElementHoverStl lift hs e).etype = e.etype := by
  unfold setElementHoverStl
  by_cases h : e.isHover <;> simp [h]

theorem elemsL_mapSubL_handlers (f : Elem → Elem)
    (hf : ∀ e, (f e).handlers = e.handlers) :
    ∀ (n : Nat) (cs : List ETree), sizeOf cs ≤ n →
      (elemsL (mapSubL f cs)).map (fun x => x.handlers)
        = (elemsL cs).map (fun x => x.handlers) := by
  intro n
  induction n with
  | zero =>
    intro cs h
    cases cs with
    | nil => rfl
    | cons t ts =>
      exfalso
      simp at h
  | succ n ih =>
    intro cs h
    cases cs with
    | nil => rfl
    | cons t ts =>
      cases t with
      | node d cs' =>
        have hsz : 1 + (1 + sizeOf d + sizeOf cs') + sizeOf ts ≤ n + 1 := by
          simpa using h
        have hcs' : sizeOf cs' ≤ n := by omega
        have hts : sizeOf ts ≤ n := by omega
        simp only [mapSubL, mapSubT, elemsL, elemsT, List.map_append, List.map_cons]
        rw [ih cs' hcs', ih ts hts]
        by_cases hd : d.etype = "group" <;> simp [hd, hf]

/-- C9 counterexample: `setHoverStyle` on a group with one non-group child
subscribes the container itself, not the child: after the call the child's
subscription list is still empty, refuting the claim that each of the N
descendants is subscribed to the four events exactly once. -/
theorem claim9_counterexample :
    demoGroup.root.etype = "group" ∧
    (elemsL demoGroup.children).length = 1 ∧
    (elemsL (setHoverStyle demoLift none none demoGroup).children).map
      (fun x => x.handlers) = [[]] ∧
    (setHoverStyle demoLift none none demoGroup).root.handlers
      = [tagMouseOver, tagMouseOut, tagEmphasis, tagNormal] := by
  exact ⟨rfl, rfl, rfl, rfl⟩

/-- C9 (amended): `setHoverStyle` stores the delta on each non-container
descendant but subscribes only the container element itself to the four
events (pointer enter/leave, emphasis on/off), exactly once regardless of how
many times it is invoked: a repeat invocation leaves the subscription list
unchanged, a fresh element ends up with exactly the four handlers, the
descendants' subscription lists are never modified, and the per-element
configure step changes no style, z-order or hover state. -/
theorem claim9_configure_subscriptions (lift : String → String)
    (hs1 hs2 : Option Props) (o1 o2 : Option Bool) (t : ETree) (e : Elem) :
    (setHoverStyle lift hs1 o1 t).root.handlers
      = addHandler (addHandler (addHandler (addHandler t.root.handlers
          tagMouseOver) tagMouseOut) tagEmphasis) tagNormal ∧
    (setHoverStyle lift hs2 o2 (setHoverStyle lift hs1 o1 t)).root.handlers
      = (setHoverStyle lift hs1 o1 t).root.handlers ∧
    (t.root.handlers = [] →
      (setHoverStyle lift hs1 o1 t).root.handlers
        = [tagMouseOver, tagMouseOut, tagEmphasis, tagNormal]) ∧
    ((elemsL (setHoverStyle lift hs1 o1 t).children).map (fun x => x.handlers)
      = (elemsL t.children).map (fun x => x.handlers)) ∧
    (setElementHoverStl lift hs1 e).handlers = e.handlers ∧
    (setElementHoverStl lift hs1 e).style = e.style ∧
    (setElementHoverStl lift hs1 e).z2 = e.z2 ∧
    (setElementHoverStl lift hs1 e).isHover = e.isHover := by
  have hroot : ∀ (hs : Option Props) (o : Option Bool) (t' : ETree),
      (setHoverStyle lift hs o t').root.handlers
        = addHandler (addHandler (addHandler (addHandler t'.root.handlers
            tagMouseOver) tagMouseOut) tagEmphasis) tagNormal := by
    intro hs o t'
    cases t' with
    | node d cs =>
      simp only [setHoverStyle, withRoot, applyHover, ETree.root]
      by_cases hd : d.etype = "group" <;> simp [hd]
  refine ⟨hroot hs1 o1 t, ?_, ?_, ?_, by simp, by simp, by simp, by simp⟩
  · rw [hroot hs2 o2 _, hroot hs1 o1 t]
    have h1 : tagMouseOver ∈ addHandler (addHandler (addHandler (addHandler
        t.root.handlers tagMouseOver) tagMouseOut) tagEmphasis) tagNormal :=
      mem_addHandler_of_mem _ (mem_addHandler_of_mem _ (mem_addHandler_of_mem _
        (mem_addHandler_self _ _)))
    have h2 : tagMouseOut ∈ addHandler (addHandler (addHandler (addHandler
        t.root.handlers tagMouseOver) tagMouseOut) tagEmphasis) tagNormal :=
      mem_addHandler_of_mem _ (mem_addHandler_of_mem _ (mem_addHandler_self _ _))
    have h3 : tagEmphasis ∈ addHandler (addHandler (addHandler (addHandler
        t.root.handlers tagMouseOver) tagMouseOut) tagEmphasis) tagNormal :=
      mem_addHandler_of_mem _ (mem_addHandler_self _ _)
    have h4 : tagNormal ∈ addHandler (addHandler (addHandler (addHandler
        t.root.handlers tagMouseOver) tagMouseOut) tagEmphasis) tagNormal :=
      mem_addHandler_self _ _
    rw [addHandler_eq_of_mem h1, addHandler_eq_of_mem h2, addHandler_eq_of_mem h3,
      addHandler_eq_of_mem h4]
  · intro hempty
    rw [hroot hs1 o1 t, hempty]
    rfl
  · cases t with
    | node d cs =>
      simp only [setHoverStyle, withRoot, applyHover, ETree.children, ETree.root]
      by_cases hd : d.etype = "group"
      · simp only [show ({ d with hoverSilentOnTouch := o1.getD false } : Elem).etype
          = d.etype from rfl, hd, if_true, ETree.children]
        exact elemsL_mapSubL_handlers _ (by simp) (sizeOf cs) cs (Nat.le_refl _)
      · simp [hd]

/-- Closed witness for C9: on the demo group, one configure call subscribes
the container once, a second call changes nothing, and the child element is
left unsubscribed. -/
theorem claim9_witness :
    (setHoverStyle demoLift none none demoGroup).root.handlers
      = addHandler (addHandler (addHandler (addHandler demoGroup.root.handlers
          tagMouseOver) tagMouseOut) tagEmphasis) tagNormal ∧
    (setHoverStyle demoLift (some []) (some true)
        (setHoverStyle demoLift none none demoGroup)).root.handlers
      = (setHoverStyle demoLift none none demoGroup).root.handlers ∧
    (elemsL (setHoverStyle demoLift none none demoGroup).children).map
      (fun x => x.handlers) = (elemsL demoGroup.children).map (fun x => x.handlers) ∧
    (setElementHoverStl demoLift none demoLeaf).z2 = demoLeaf.z2 :=
  ⟨(claim9_configure_subscriptions demoLift none (some []) none (some true)
      demoGroup demoLeaf).1,
   (claim9_configure_subscriptions demoLift none (some []) none (some true)
      demoGroup demoLeaf).2.1,
   (claim9_configure_subscriptions demoLift none (some []) none (some true)
      demoGroup demoLeaf).2.2.2.1,
   (claim9_configure_subscriptions demoLift none (some []) none (some true)
      demoGroup demoLeaf).2.2.2.2.2.2.1⟩

/-- C10 counterexample: on the scenario element (dirty, empty delta, live
paintable fill), `cacheElementStl` mutates the pending hover-delta object it
reads from - it installs the defaulted fill/stroke entries into `__hoverStl` -
refuting the claim that it alters nothing but the snapshot and the dirty
bit. -/
theorem claim10_counterexample :
    demoElem.hoverStl = [] ∧
    (cacheElementStl demoLift demoElem).hoverStl
      = [("fill", some (JVal.str (demoLift "#336699"))), ("stroke", none)] ∧
    (cacheElementStl demoLift demoElem).hoverStl ≠ demoElem.hoverStl := by
  refine ⟨rfl, rfl, by decide⟩

/-- C10 (amended): `cacheElementStl` never mutates the element's rendered
style, z-order, hover flags, subscriptions or overlay state; beyond the
normal-style snapshot and the dirty bit its only other write is into the
pending hover delta, and there only at the `fill` and `stroke` keys. -/
theorem claim10_cache_side_effects (lift : String → String) (el : Elem) :
    (cacheElementStl lift el).style = el.style ∧
    (cacheElementStl lift el).z2 = el.z2 ∧
    (cacheElementStl lift el).isHover = el.isHover ∧
    (cacheElementStl lift el).isEmphasis = el.isEmphasis ∧
    (cacheElementStl lift el).zrHover = el.zrHover ∧
    (cacheElementStl lift el).handlers = el.handlers ∧
    (∀ k, k ≠ "fill" → k ≠ "stroke" →
      lookupP (cacheElementStl lift el).hoverStl k = lookupP el.hoverStl k) := by
  refine ⟨by simp, by simp, by simp, by simp, by simp, by simp, ?_⟩
  intro k hk1 hk2
  unfold cacheElementStl
  by_cases hd : el.hoverStlDirty
  · rw [if_pos hd]
    show lookupP (setKey (setKey el.hoverStl "fill" _) "stroke" _) k
      = lookupP el.hoverStl k
    rw [lookupP_setKey, lookupP_setKey]
    simp [hk1, hk2]
  · rw [if_neg hd]

/-- Closed witness for C10: the scenario element's rendered style is
untouched and a key other than fill/stroke keeps its delta entry. -/
theorem claim10_witness :
    ("lineWidth" : String) ≠ "fill" ∧
    (cacheElementStl demoLift demoElem).style = demoElem.style ∧
    lookupP (cacheElementStl demoLift demoElem).hoverStl "lineWidth"
      = lookupP demoElem.hoverStl "lineWidth" :=
  ⟨by decide,
   (claim10_cache_side_effects demoLift demoElem).1,
   (claim10_cache_side_effects demoLift demoElem).2.2.2.2.2.2 "lineWidth"
     (by decide) (by decide)⟩

end ECharts
